import Mathlib

/-!
Verification development for the SCity_Scraper_Poc event-aggregation core.

This file gives a shallow embedding, in Lean 4, of the reconciliation and
retrieval engine of the repository:

* `src/utils/eventAggregator.js` — date resolution (`parseDate`), event
  normalization (`normalizeEvent`, `generateId`), fuzzy deduplication
  (`removeDuplicates`, `normalizeTitle`, `areEventsSimilar`,
  `calculateSimilarity`) and the catalog queries (`getAllEvents`,
  `filterByDateRange`, `getEventsByCategory`);
* the MongoDB-backed vector store (`vectorStore.js`: `addVector`,
  `cosineSimilarity`, `search`, `size`/`isEmpty`) and the RAG chatbot
  (`chatbot.js`: `chat`).

Modelling conventions, used throughout:

* JS `Date` values produced by the aggregator are local-midnight calendar
  dates; they are modelled by a civil triple `Civil` (year, month, day).
  Time values/comparisons between such dates reduce to comparisons of
  `Civil.toDays` (a days-since-1970-01-01 count, Howard Hinnant's civil
  calendar algorithm); the reference instant `now` is modelled at day
  granularity (midnight), so `date < now - 30 days` becomes
  `toDays date < toDays now - 30`.
* JS strings are modelled by `String` or `List Char`; the ASCII fragment of
  `toLowerCase`, `\w`, `\s` is modelled (the scraped titles are ASCII).
* JS `Map` objects are modelled by association lists in insertion order;
  `Map.set` updates in place or appends (`mapSet`).
* `Array.prototype.sort(cmp)` is stable in JS; any stable sort with the same
  comparator produces the same list, so it is modelled by the stable
  insertion sort `jsSortBy` keyed by the comparator's sort key.
* JS floating-point numbers are modelled exactly: vector components as `ℚ`,
  similarity values (which involve `Math.sqrt`) as `ℝ`.
* External effects (MongoDB calls, the Gemini embedding/generation provider)
  are modelled by explicit outcome parameters (`dbOk : Bool`,
  `Except String _` oracles), matching the spec's view of them as opaque
  collaborators.
-/

namespace SCity

/-! ### Civil calendar model of JS `Date` -/

/-- A JS `Date` at local midnight, as a civil (year, month, day) triple.
`setFullYear` keeps month and day, so the triple may be denormalized only in
the Feb-29-to-Mar-1 case, which `toDays` resolves linearly like JS does. -/
structure Civil where
  y : Int
  m : Int
  d : Int
deriving DecidableEq

/-- Gregorian leap-year test. -/
def isLeap (y : Int) : Bool :=
  (y % 4 = 0 && y % 100 ≠ 0) || y % 400 = 0

/-- Number of days in a month of a given year. -/
def daysInMonth (y m : Int) : Int :=
  if m = 2 then (if isLeap y then 29 else 28)
  else if m = 4 ∨ m = 6 ∨ m = 9 ∨ m = 11 then 30
  else 31

/-- Whether (y, m, d) denotes a real calendar date. -/
def validYMD (y m d : Int) : Bool :=
  1 ≤ m && m ≤ 12 && 1 ≤ d && d ≤ daysInMonth y m

/-- Days since 1970-01-01 of a civil date (Hinnant's `days_from_civil`,
with floor division so it is total on `Int`). The formula is linear in `d`,
which resolves a denormalized Feb 29 to Mar 1 exactly as JS arithmetic does. -/
def Civil.toDays (c : Civil) : Int :=
  let y := if c.m ≤ 2 then c.y - 1 else c.y
  let era := y.fdiv 400
  let yoe := y - era * 400
  let mp := (c.m + 9) % 12
  let doy := (153 * mp + 2).fdiv 5 + c.d - 1
  let doe := yoe * 365 + yoe.fdiv 4 - yoe.fdiv 100 + doy
  era * 146097 + doe - 719468

/-- Model of JS `date.setFullYear(y)`: the year changes, month and day-of-month
are kept (`getFullYear` of the result is `y` for every date arising here, since
the only possible denormalization, Feb 29 in a non-leap year, normalizes to
Mar 1 of the same year). -/
def setFullYear (c : Civil) (y : Int) : Civil :=
  { c with y := y }

/-! ### Model of JS date-string parsing (`new Date(string)`)

`new Date` is a JS builtin (an external collaborator of the aggregator); it is
modelled on the shapes of strings the scrapers produce:

* `empty` — the empty/absent string (falsy in the `!dateString` guard);
* `monthDay m d` — a textual date with no year, e.g. `"Jan 3"`; V8 parses it
  with default year 2001 and rejects days invalid for that calendar;
* `monthDayYear m d y` — a textual date with a trailing 4-digit year,
  e.g. `"Jan 3, 2025"`;
* `junk` — a non-empty string `new Date` cannot parse (Invalid Date). -/

inductive RawDateStr where
  | empty
  | monthDay (m d : Int)
  | monthDayYear (m d y : Int)
  | junk
deriving DecidableEq

/-- Model of `new Date(s)`: `none` is an Invalid Date (NaN time value). -/
def jsParse : RawDateStr → Option Civil
  | .empty => none
  | .monthDay m d => if validYMD 2001 m d then some ⟨2001, m, d⟩ else none
  | .monthDayYear m d y => if validYMD y m d then some ⟨y, m, d⟩ else none
  | .junk => none

/-- Model of `dateString.replace(/,?\s*\d{4}.*$/, '')`: a trailing 4-digit
year (and anything after it) is dropped; strings without a 4-digit run are
unchanged (day numbers are at most two digits). -/
def stripTrailingYear : RawDateStr → RawDateStr
  | .monthDayYear m d _ => .monthDay m d
  | s => s

/-- Model of `` new Date(`${cleanDate}, ${currentYear}`) ``'s argument:
appending `, year` to a month-day string yields a month-day-year string;
appending it to an unparseable or empty string stays unparseable. -/
def appendYear : RawDateStr → Int → RawDateStr
  | .monthDay m d, y => .monthDayYear m d y
  | .monthDayYear m d _, y => .monthDayYear m d y
  | .empty, _ => .junk
  | .junk, _ => .junk

/-- The year-resolution phase of `EventAggregator.parseDate` (everything up to
but excluding the 30-day rollover): first parse, the stale-year re-parse with
the current year appended, and the forced `setFullYear(currentYear)` repair.
`none` means every parse attempt produced an Invalid Date. -/
def resolvePre (s : RawDateStr) (now : Civil) : Option Civil :=
  (match jsParse s with
    | some c =>
        if c.y < now.y - 1 then jsParse (appendYear (stripTrailingYear s) now.y)
        else some c
    | none => jsParse (appendYear (stripTrailingYear s) now.y)).map
    (fun c : Civil => if c.y < now.y - 1 then setFullYear c now.y else c)

/-- Model of `EventAggregator.parseDate(dateString)` with `new Date()` (the reference
instant) passed explicitly as `now`: falsy input returns `now`; otherwise the
year-resolution phase runs, then the 30-day rollover
(`if (date < thirtyDaysAgo) date.setFullYear(date.getFullYear() + 1)`), and a
final fallback to `now` when no parse attempt succeeded. -/
def parseDate (s : RawDateStr) (now : Civil) : Civil :=
  if s = .empty then now
  else
    match resolvePre s now with
    | some c =>
        if c.toDays < now.toDays - 30 then setFullYear c (c.y + 1) else c
    | none => now

/-- A raw date string contains an explicit year only in the
`monthDayYear` shape. -/
def hasYear : RawDateStr → Bool
  | .monthDayYear _ _ _ => true
  | _ => false

/-! ### Canonical event records and `normalizeEvent` -/

/-- The canonical event record produced by `EventAggregator.normalizeEvent`
(the presentation-only `dateDisplay` string added by
`convertDbEventsToFormat` is not modelled; no claim depends on it). -/
structure Event where
  id : String
  title : String
  description : String
  date : Civil
  endDate : Option Civil
  time : String
  price : String
  category : String
  image : String
  link : String
  source : String
  venue : String
  organizer : String
deriving DecidableEq

/-- A raw scraped event: a loosely-typed bag where every field may be absent
(`none` models JS `undefined`). -/
structure RawEvent where
  id : Option String
  title : Option String
  description : Option String
  date : Option RawDateStr
  endDate : Option RawDateStr
  time : Option String
  price : Option String
  category : Option String
  image : Option String
  link : Option String
  venue : Option String
  organizer : Option String
deriving DecidableEq

/-- JS `v || dflt` on an optional string field: `undefined` and the empty
string are falsy. -/
def jsOr (v : Option String) (dflt : String) : String :=
  match v with
  | some s => if s = "" then dflt else s
  | none => dflt

/-- Model of `EventAggregator.generateId(title)`:
`title.toLowerCase().replace(/[^a-z0-9]/g, '-').substring(0, 50)`.
Called with `undefined` (no title) it throws a `TypeError`
(`toLowerCase` of `undefined`), modelled as an `Except.error`. -/
def generateId (title : Option String) : Except String String :=
  match title with
  | none => .error "TypeError: Cannot read properties of undefined (reading toLowerCase)"
  | some t =>
      .ok ⟨((t.toList.map Char.toLower).map
        (fun c => if ('a' ≤ c ∧ c ≤ 'z') ∨ ('0' ≤ c ∧ c ≤ '9') then c else '-')).take 50⟩

/-- Model of `EventAggregator.normalizeEvent(event, source)` (with the reference
instant `now` explicit). The `id` field is computed first, as
`` `${source}-${event.id || this.generateId(event.title)}` ``, so an absent
`id` together with an absent `title` propagates `generateId`'s `TypeError`. -/
def normalizeEvent (e : RawEvent) (source : String) (now : Civil) : Except String Event :=
  let idPart : Except String String :=
    match e.id with
    | some s => if s = "" then generateId e.title else .ok s
    | none => generateId e.title
  idPart.map (fun i =>
    { id := source ++ "-" ++ i
      title := jsOr e.title "Untitled Event"
      description := jsOr e.description ""
      date := parseDate (e.date.getD .empty) now
      endDate :=
        match e.endDate with
        | some ds => if ds = .empty then none else some (parseDate ds now)
        | none => none
      time := jsOr e.time ""
      price := jsOr e.price "Free"
      category := jsOr e.category "General"
      image := jsOr e.image ""
      link := jsOr e.link ""
      source := source
      venue := jsOr e.venue ""
      organizer := jsOr e.organizer "" })

/-- The raw event with every field absent. -/
def emptyRawEvent : RawEvent :=
  ⟨none, none, none, none, none, none, none, none, none, none, none, none⟩

/-! ### Title normalization (`EventAggregator.normalizeTitle`)

The JS pipeline is
`title.toLowerCase().trim().replace(/[^\w\s]/g, '').replace(/\s+/g, ' ')
.replace(/\b(the|a|an|in|at|on|for)\b/g, '').trim()`.
After the first three `replace`s the string consists of word characters
(`[a-z0-9_]` once lowercased) separated by single spaces, so the
word-boundary stop-word removal removes exactly the space-delimited tokens
equal to a stop word, leaving the separating spaces in place; it is modelled
token-wise below. -/

/-- JS `\w` (ASCII word character). -/
def isWordChar (c : Char) : Bool :=
  ('a' ≤ c && c ≤ 'z') || ('A' ≤ c && c ≤ 'Z') || ('0' ≤ c && c ≤ '9') || c = '_'

/-- JS `\s` (the whitespace forms occurring in scraped titles). -/
def isSpaceChar (c : Char) : Bool :=
  c = ' ' || c = '\t' || c = '\n' || c = '\r'

/-- Drop leading whitespace. -/
def dropLeadingSpace (l : List Char) : List Char :=
  l.dropWhile isSpaceChar

/-- JS `String.prototype.trim`. -/
def trimChars (l : List Char) : List Char :=
  dropLeadingSpace ((dropLeadingSpace l.reverse).reverse)

/-- Model of `replace(/\s+/g, ' ')`: each maximal whitespace run becomes one space.
The flag records whether the previous character was whitespace. -/
def collapseAux : Bool → List Char → List Char
  | _, [] => []
  | prevSpace, c :: cs =>
      if isSpaceChar c then
        if prevSpace then collapseAux true cs else ' ' :: collapseAux true cs
      else c :: collapseAux false cs

/-- Model of `replace(/\s+/g, ' ')`. -/
def collapseSpaces (l : List Char) : List Char :=
  collapseAux false l

/-- JS `String.prototype.split(' ')` (never returns an empty list; adjacent
separators yield empty tokens). -/
def splitOnSpace : List Char → List (List Char)
  | [] => [[]]
  | c :: cs =>
      if c = ' ' then [] :: splitOnSpace cs
      else
        match splitOnSpace cs with
        | w :: ws => (c :: w) :: ws
        | [] => [[c]]

/-- The stop-word list of `normalizeTitle`. -/
def stopWords : List (List Char) :=
  [['t','h','e'], ['a'], ['a','n'], ['i','n'], ['a','t'], ['o','n'], ['f','o','r']]

/-- Model of `replace(/\b(the|a|an|in|at|on|for)\b/g, '')` on a collapsed string:
each space-delimited token equal to a stop word is replaced by the empty
token; the separating spaces remain (so double spaces can appear). -/
def removeStopWords (l : List Char) : List Char :=
  List.intercalate [' ']
    ((splitOnSpace l).map (fun w => if w ∈ stopWords then [] else w))

/-- Model of `EventAggregator.normalizeTitle(title)`, as a character list. -/
def normalizeTitle (t : String) : List Char :=
  trimChars (removeStopWords (collapseSpaces
    ((trimChars (t.toList.map Char.toLower)).filter
      (fun c => isWordChar c || isSpaceChar c))))

/-! ### Fuzzy similarity (`calculateSimilarity`, `areEventsSimilar`) -/

/-- The accumulation loop of `calculateSimilarity`:
`for word of shorterWords: if (longerWords.includes(word) && word.length > 2)
matches += word.length`. -/
def matchesLoop (longerWords : List (List Char)) (ws : List (List Char)) (acc : Nat) : Nat :=
  match ws with
  | [] => acc
  | w :: rest =>
      matchesLoop longerWords rest
        (if longerWords.contains w && decide (2 < w.length) then acc + w.length else acc)

/-- Model of `EventAggregator.calculateSimilarity(str1, str2)`: token-overlap score in
`[0, 1]` (JS float arithmetic modelled exactly in `ℚ`). On equal lengths the
code's ternary picks `str2` as the longer string. -/
def calculateSimilarity (str1 str2 : List Char) : ℚ :=
  let longer := if str2.length < str1.length then str1 else str2
  let shorter := if str2.length < str1.length then str2 else str1
  if longer.length = 0 then 1
  else
    let shorterWords := splitOnSpace shorter
    let longerWords := splitOnSpace longer
    let matchCount := matchesLoop longerWords shorterWords 0
    (matchCount : ℚ) / (longer.length : ℚ)

/-- Calendar-day key of an event's date (`new Date(event.date).toDateString()`
distinguishes exactly the calendar day). -/
def dayKey (e : Event) : Int :=
  e.date.toDays

/-- Model of `EventAggregator.areEventsSimilar(event1, event2)`: same calendar day, then
equal normalized titles, then mutual substring test
(`title1.includes(title2) || title2.includes(title1)`), then token-overlap
score strictly above 0.8. -/
def areEventsSimilar (e1 e2 : Event) : Bool :=
  if dayKey e1 ≠ dayKey e2 then false
  else
    let title1 := normalizeTitle e1.title
    let title2 := normalizeTitle e2.title
    if title1 = title2 then true
    else if decide (title2 <:+: title1) || decide (title1 <:+: title2) then true
    else decide ((0.8 : ℚ) < calculateSimilarity title1 title2)

/-! ### Deduplication (`EventAggregator.removeDuplicates`) -/

/-- The exact-match key `` `${normalizedTitle}-${dateKey}` ``; normalized
titles contain no `-` and `toDateString` output contains none either, so the
concatenation is injective in the pair modelled here. -/
def dedupKey (e : Event) : List Char × Int :=
  (normalizeTitle e.title, dayKey e)

/-- The loop of `removeDuplicates`: `seen` is the JS `Map` in insertion order
(pairs of key and representative event); a candidate is dropped when its exact
key was seen or when it is similar to any seen representative, and otherwise
kept and appended to `seen`. -/
def dedupGo (seen : List ((List Char × Int) × Event)) : List Event → List Event
  | [] => []
  | e :: rest =>
      if seen.any (fun p => p.1 = dedupKey e) then dedupGo seen rest
      else if seen.any (fun p => areEventsSimilar e p.2) then dedupGo seen rest
      else e :: dedupGo (seen ++ [(dedupKey e, e)]) rest

/-- Model of `EventAggregator.removeDuplicates(events)`. -/
def removeDuplicates (events : List Event) : List Event :=
  dedupGo [] events

/-! ### Stable sort model of JS `Array.prototype.sort`

JS `sort` with a consistent numeric comparator is stable (ES2019), and a
stable sort is determined extensionally by the comparator, so it is modelled
by a stable left-to-right insertion sort keyed by the comparator's sort key:
an incoming element is placed after every already-placed element whose key is
not greater. -/

/-- Stable insertion of `x` into a list sorted by `key` ascending: `x` goes
before the first element with a strictly greater key. -/
def insBy {α : Type} {K : Type} [LinearOrder K] (key : α → K) (x : α) : List α → List α
  | [] => [x]
  | y :: ys => if key x < key y then x :: y :: ys else y :: insBy key x ys

/-- Model of `array.sort(cmp)` where `cmp a b = key a - key b` (ascending,
stable). -/
def jsSortBy {α : Type} {K : Type} [LinearOrder K] (key : α → K) (l : List α) : List α :=
  l.foldl (fun acc x => insBy key x acc) []

/-- The lexicographic (key, input index) sort key: ordering by it is ordering
by the key with ties broken by input position. -/
def lexIdxKey {α : Type} {K : Type} (key : α → K) (p : ℕ × α) : Lex (K × ℕ) :=
  toLex (key p.2, p.1)

/-! ### Catalog queries (`getAllEvents`, `filterByDateRange`,
`getEventsByCategory`) -/

/-- Millisecond timestamp of an event's (midnight) date — the value compared
by the sort comparator `new Date(a.date) - new Date(b.date)` and by the
Mongo `date` index. -/
def dateMs (e : Event) : Int :=
  86400000 * e.date.toDays

/-- The aggregator's storage state: `useDatabase` is fixed at initialization;
`inMemoryEvents` is the in-process fallback array; `dbEvents` models the
Mongo `events` collection in insertion order. -/
structure AggState where
  useDatabase : Bool
  inMemoryEvents : List Event
  dbEvents : List Event
deriving DecidableEq

/-- The in-memory query path shared by every catch/fallback branch:
`removeDuplicates(events).sort((a, b) => new Date(a.date) - new Date(b.date))`. -/
def memAllEvents (events : List Event) : List Event :=
  jsSortBy dateMs (removeDuplicates events)

/-- Model of `EventAggregator.getAllEvents()`. In database mode the success path is
`Event.find({}).sort({ date: 1 })` followed by `convertDbEventsToFormat`
(field-preserving in this model) — no deduplication; `dbOk` models whether
the Mongo call succeeds (the catch branch falls back to the in-memory path). -/
def getAllEvents (st : AggState) (dbOk : Bool) : List Event :=
  if st.useDatabase then
    if dbOk then jsSortBy dateMs st.dbEvents
    else memAllEvents st.inMemoryEvents
  else memAllEvents st.inMemoryEvents

/-- Model of `EventAggregator.filterByDateRange(startDate, endDate)` (bounds are
millisecond timestamps). Database mode:
`Event.findByDateRange` = `find({date: {$gte, $lte}}).sort({date: 1})`,
no deduplication; memory mode filters, deduplicates and sorts. -/
def filterByDateRange (st : AggState) (dbOk : Bool) (startMs endMs : Int) : List Event :=
  if st.useDatabase then
    if dbOk then
      jsSortBy dateMs (st.dbEvents.filter (fun e => startMs ≤ dateMs e && dateMs e ≤ endMs))
    else
      memAllEvents (st.inMemoryEvents.filter
        (fun e => startMs ≤ dateMs e && dateMs e ≤ endMs))
  else
    memAllEvents (st.inMemoryEvents.filter
      (fun e => startMs ≤ dateMs e && dateMs e ≤ endMs))

/-- JS `String.prototype.toLowerCase` (ASCII). -/
def lowerStr (s : String) : String :=
  ⟨s.toList.map Char.toLower⟩

/-- Model of `EventAggregator.getEventsByCategory(category)`. Database mode:
`Event.findByCategory` = `find({ category }).sort({ date: 1 })` (exact
match, no deduplication); memory mode filters `getAllEvents()` by
case-insensitive category equality. -/
def getEventsByCategory (st : AggState) (dbOk : Bool) (category : String) : List Event :=
  if st.useDatabase then
    if dbOk then jsSortBy dateMs (st.dbEvents.filter (fun e => e.category = category))
    else (getAllEvents st dbOk).filter (fun e => lowerStr e.category = lowerStr category)
  else (getAllEvents st dbOk).filter (fun e => lowerStr e.category = lowerStr category)

/-! ### Vector store (`vectorStore.js`, MongoDB-backed version)

Embedding vectors are JS number arrays, modelled exactly as `List ℚ`;
similarity values involve `Math.sqrt` and are modelled in `ℝ`. -/

/-- The metadata stored alongside a vector: full event metadata (in-memory
writes) or the id-only record `{ eventId }` kept in the refresh cache. -/
inductive Meta where
  | ofEvent (e : Event)
  | idOnly (eventId : String)
deriving DecidableEq

/-- A vector-store entry `{ embedding, metadata }`. -/
structure VSEntry where
  embedding : List ℚ
  meta : Meta
deriving DecidableEq

/-- One ranked search result `{ eventId, metadata, similarity }`. -/
structure SearchResult where
  eventId : String
  metadata : Meta
  similarity : ℝ

/-- The accumulation loop of `cosineSimilarity`
(`dotProduct += a*b; normA += a*a; normB += b*b`), as
(dot product, sum of squares of A, sum of squares of B); exact rational
arithmetic is order-insensitive, so a structural recursion models the
index loop. -/
def simLoop : List ℚ → List ℚ → ℚ × ℚ × ℚ
  | a :: as, b :: bs =>
      let r := simLoop as bs
      (a * b + r.1, a * a + r.2.1, b * b + r.2.2)
  | _, _ => (0, 0, 0)

/-- Model of `VectorStore.cosineSimilarity(vecA, vecB)`: throws on mismatched lengths
(modelled as `Except.error`), returns 0 when either `Math.sqrt` of the sum
of squares is 0, else the dot product over the product of the norms. -/
noncomputable def cosineSimilarity (vecA vecB : List ℚ) : Except String ℝ :=
  if vecA.length ≠ vecB.length then .error "Vectors must have the same length"
  else
    let s := simLoop vecA vecB
    let normA := Real.sqrt ((s.2.1 : ℚ) : ℝ)
    let normB := Real.sqrt ((s.2.2 : ℚ) : ℝ)
    if normA = 0 ∨ normB = 0 then .ok 0
    else .ok (((s.1 : ℚ) : ℝ) / (normA * normB))

/-- The metadata map built from the caller's `eventMetadata` array
(`forEach(set)`: a later entry with the same id overwrites an earlier one). -/
def metaLookup (eventMetadata : List Event) (eid : String) : Option Event :=
  eventMetadata.foldl (fun acc e => if e.id = eid then some e else acc) none

/-- The scoring loop of `VectorStore.search`: one result per source entry, in
map insertion order; `metadataMap.get(eventId) || data.metadata` prefers the
caller's live metadata; a `cosineSimilarity` throw aborts the whole search. -/
noncomputable def scoredE (source : List (String × VSEntry)) (q : List ℚ)
    (eventMetadata : List Event) : Except String (List SearchResult) :=
  match source with
  | [] => .ok []
  | (eid, data) :: rest =>
      match cosineSimilarity q data.embedding with
      | .error msg => .error msg
      | .ok sim =>
          match scoredE rest q eventMetadata with
          | .error msg => .error msg
          | .ok rs =>
              .ok ({ eventId := eid
                     metadata :=
                       match metaLookup eventMetadata eid with
                       | some e => Meta.ofEvent e
                       | none => data.meta
                     similarity := sim } :: rs)

/-- Descending-similarity sort key of
`results.sort((a, b) => b.similarity - a.similarity)`. -/
noncomputable def negSim (r : SearchResult) : ℝ :=
  -r.similarity

/-- Model of `VectorStore.search(queryEmbedding, topK, eventMetadata)` over a given
entry list: score every entry, sort by similarity descending (stable), return
the first `topK`. -/
noncomputable def searchE (source : List (String × VSEntry)) (q : List ℚ) (topK : Nat)
    (eventMetadata : List Event) : Except String (List SearchResult) :=
  (scoredE source q eventMetadata).map (fun rs => (jsSortBy negSim rs).take topK)

/-- Ranking as the spec words it: sort the scored results in descending order
of similarity, breaking ties by input (insertion) order — i.e. by the
lexicographic key (negated similarity, input index). -/
noncomputable def specRank (rs : List SearchResult) : List SearchResult :=
  (jsSortBy (lexIdxKey negSim) rs.enum).map Prod.snd

/-- The vector store's state: the in-memory fallback map, the optional read
cache (null until a successful `refreshCache`), and the Mongo `embeddings`
collection, each in insertion order. -/
structure VSState where
  useDatabase : Bool
  inMemoryVectors : List (String × VSEntry)
  vectorCache : Option (List (String × VSEntry))
  dbEmbeddings : List (String × List ℚ)

/-- JS `Map.prototype.set`: update in place when the key exists, else append. -/
def mapSet {β : Type} (m : List (String × β)) (k : String) (v : β) : List (String × β) :=
  if m.any (fun p => p.1 = k) then m.map (fun p => if p.1 = k then (k, v) else p)
  else m ++ [(k, v)]

/-- Model of `VectorStore.addVector(eventId, embedding, metadata)`; `dbOk` models the
outcome of the `Embedding.findOneAndUpdate` upsert. Success updates the
database and (when present) the cache; failure falls back to the in-memory
map; memory mode writes the in-memory map directly. -/
def addVector (st : VSState) (dbOk : Bool) (eventId : String) (embedding : List ℚ)
    (meta : Meta) : VSState :=
  if st.useDatabase then
    if dbOk then
      { st with
        dbEmbeddings := mapSet st.dbEmbeddings eventId embedding
        vectorCache := st.vectorCache.map (fun c => mapSet c eventId ⟨embedding, meta⟩) }
    else { st with inMemoryVectors := mapSet st.inMemoryVectors eventId ⟨embedding, meta⟩ }
  else { st with inMemoryVectors := mapSet st.inMemoryVectors eventId ⟨embedding, meta⟩ }

/-- The entry list `VectorStore.search` iterates:
`(this.useDatabase && this.vectorCache) ? this.vectorCache
: this.inMemoryVectors` (an empty cache `Map` is truthy). -/
def searchSource (st : VSState) : List (String × VSEntry) :=
  match st.useDatabase, st.vectorCache with
  | true, some c => c
  | _, _ => st.inMemoryVectors

/-- Model of `VectorStore.search` on a store state. -/
noncomputable def searchState (st : VSState) (q : List ℚ) (topK : Nat)
    (eventMetadata : List Event) : Except String (List SearchResult) :=
  searchE (searchSource st) q topK eventMetadata

/-- Model of `VectorStore.size()` (successful `countDocuments` path in database
mode). -/
def storeSize (st : VSState) : Nat :=
  if st.useDatabase then st.dbEmbeddings.length else st.inMemoryVectors.length

/-- Model of `VectorStore.isEmpty()`. -/
def storeIsEmpty (st : VSState) : Bool :=
  storeSize st = 0

/-! ### RAG chatbot (`chatbot.js`, MongoDB-backed version) -/

/-- The fixed reply when no Gemini API key is configured. -/
def notConfiguredMsg : String :=
  "I'm sorry, but the chatbot is not configured. Please set up your Gemini API key to enable chat functionality."

/-- The fixed reply when the vector store is empty. -/
def notIndexedMsg : String :=
  "I don't have any events indexed yet. Please wait for the events to load."

/-- The fixed reply of the `catch` branch of `Chatbot.chat`. -/
def chatErrorMsg : String :=
  "I'm sorry, I encountered an error processing your request. Please try again."

/-- Rendering of `toLocaleDateString()` on a civil date (the exact locale
format is presentation-only; only its presence in the prompt matters). -/
def localeDateString (c : Civil) : String :=
  toString c.y ++ "-" ++ toString c.m ++ "-" ++ toString c.d

/-- Field access `metadata.title` (on an id-only cache record the field is
`undefined`, which a JS template literal renders as "undefined"). -/
def metaTitle : Meta → String
  | .ofEvent e => e.title
  | .idOnly _ => "undefined"

/-- Field access `metadata.description`. -/
def metaDescription : Meta → String
  | .ofEvent e => e.description
  | .idOnly _ => "undefined"

/-- Field access `metadata.category`. -/
def metaCategory : Meta → String
  | .ofEvent e => e.category
  | .idOnly _ => "undefined"

/-- Field access `metadata.venue`. -/
def metaVenue : Meta → String
  | .ofEvent e => e.venue
  | .idOnly _ => "undefined"

/-- Field access `metadata.price`. -/
def metaPrice : Meta → String
  | .ofEvent e => e.price
  | .idOnly _ => "undefined"

/-- Model of `event.dateDisplay || new Date(event.date).toLocaleDateString()`:
normalized events carry no `dateDisplay`, so the locale rendering is used;
on an id-only record `new Date(undefined)` is an Invalid Date. -/
def metaDateLine : Meta → String
  | .ofEvent e => localeDateString e.date
  | .idOnly _ => "Invalid Date"

/-- Model of `Chatbot.buildContext(results)`. -/
def buildContext (results : List SearchResult) : String :=
  String.intercalate "\n"
    (results.enum.map (fun p =>
      "Event " ++ toString (p.1 + 1) ++ ":\nTitle: " ++ metaTitle p.2.metadata ++
      "\nDate: " ++ metaDateLine p.2.metadata ++
      "\nCategory: " ++ metaCategory p.2.metadata ++
      "\nVenue: " ++ metaVenue p.2.metadata ++
      "\nPrice: " ++ metaPrice p.2.metadata ++
      "\nDescription: " ++ metaDescription p.2.metadata ++ "\n"))

/-- Model of `Chatbot.buildPrompt(userQuery, context)`. -/
def buildPrompt (userQuery context : String) : String :=
  "You are a helpful assistant for the Qatar Events Aggregator. Your role is to help users find and learn about events in Qatar.\n\nHere are the most relevant events based on the user's query:\n\n"
    ++ context ++ "\n\nUser Query: " ++ userQuery ++
    "\n\nPlease provide a helpful, conversational response. If the user is asking about specific events, reference them by name. If they're looking for recommendations, suggest the most relevant events from the list above. Keep your response concise and friendly."

/-- The chatbot's state: whether an API key was supplied, and its vector
store. -/
structure ChatbotState where
  hasApiKey : Bool
  store : VSState

/-- The value of `Chatbot.chat`: `{ response, events }`. -/
structure ChatReply where
  response : String
  events : List Meta

/-- Model of `Chatbot.chat(userQuery, allEvents)`. The two external Gemini calls are
modelled by outcome oracles: `embedR` is the result of
`generateEmbedding(userQuery)` and `genR prompt` the result of
`chatModel.generateContent(prompt)`; any `Except.error` models a thrown
provider error, caught by the surrounding `try`/`catch`. -/
noncomputable def chat (cb : ChatbotState) (embedR : Except String (List ℚ))
    (genR : String → Except String String) (userQuery : String)
    (allEvents : List Event) : ChatReply :=
  if cb.hasApiKey = false then ⟨notConfiguredMsg, []⟩
  else if storeIsEmpty cb.store then ⟨notIndexedMsg, []⟩
  else
    match embedR with
    | .error _ => ⟨chatErrorMsg, []⟩
    | .ok qv =>
        match searchState cb.store qv 5 allEvents with
        | .error _ => ⟨chatErrorMsg, []⟩
        | .ok results =>
            match genR (buildPrompt userQuery (buildContext results)) with
            | .error _ => ⟨chatErrorMsg, []⟩
            | .ok text => ⟨text, results.map (fun r => r.metadata)⟩

/-! ### Spec-side definitions (the spec's wording, for refinement claims) -/

/-- The token-overlap score as the spec words it: the sum of the character
lengths of the words longer than 2 characters shared between the shorter and
the longer normalized title, divided by the longer title's total character
length. -/
def specTokenScore (t1 t2 : List Char) : ℚ :=
  let longer := if t2.length < t1.length then t1 else t2
  let shorter := if t2.length < t1.length then t2 else t1
  ((((splitOnSpace shorter).filter
      (fun w => decide (2 < w.length ∧ w ∈ splitOnSpace longer))).map List.length).sum : ℚ)
    / (longer.length : ℚ)

/-- The similarity predicate as the spec words it: same calendar day, and
identical normalized titles, or one normalized title a substring of the
other, or token-overlap score strictly greater than 0.8. -/
def SpecSimilar (e1 e2 : Event) : Prop :=
  e1.date.toDays = e2.date.toDays ∧
    (normalizeTitle e1.title = normalizeTitle e2.title ∨
      normalizeTitle e2.title <:+: normalizeTitle e1.title ∨
      normalizeTitle e1.title <:+: normalizeTitle e2.title ∨
      (0.8 : ℚ) < specTokenScore (normalizeTitle e1.title) (normalizeTitle e2.title))

/-! ### Lemmas about the similarity score -/

theorem matchesLoop_eq (lw : List (List Char)) :
    ∀ (ws : List (List Char)) (acc : Nat),
      matchesLoop lw ws acc =
        acc + ((ws.filter (fun w => lw.contains w && decide (2 < w.length))).map
          List.length).sum
  | [], acc => by simp [matchesLoop]
  | w :: rest, acc => by
    by_cases h : lw.contains w && decide (2 < w.length)
    · simp only [matchesLoop, h, if_pos, List.filter_cons_of_pos, List.map_cons, List.sum_cons]
      rw [matchesLoop_eq lw rest]
      omega
    · simp only [matchesLoop, h, if_neg, List.filter_cons_of_neg, Bool.false_eq_true,
        not_false_eq_true]
      rw [matchesLoop_eq lw rest]

theorem calculateSimilarity_eq_spec (t1 t2 : List Char)
    (h : (if t2.length < t1.length then t1 else t2).length ≠ 0) :
    calculateSimilarity t1 t2 = specTokenScore t1 t2 := by
  unfold calculateSimilarity specTokenScore
  rw [if_neg h]
  simp only []
  rw [matchesLoop_eq, Nat.zero_add]
  congr 4
  apply List.filter_congr
  intro w _
  simp [List.elem_iff, Bool.and_comm]

theorem longer_length_ne_zero {t1 t2 : List Char} (heq : t1 ≠ t2) :
    (if t2.length < t1.length then t1 else t2).length ≠ 0 := by
  intro h0
  by_cases hl : t2.length < t1.length
  · rw [if_pos hl] at h0
    omega
  · rw [if_neg hl] at h0
    have h1 : t1.length = 0 := by omega
    exact heq (by rw [List.length_eq_zero.mp h0, List.length_eq_zero.mp h1])

/-- C1. For every pair of events, the Deduplicator's similarity predicate
judges them duplicates if and only if they fall on the same calendar day and
their normalized titles are identical, or one normalized title is a substring
of the other, or the token-overlap score (as the spec words it) is strictly
greater than 0.8; in particular events on different calendar days are never
judged duplicates. -/
theorem areEventsSimilar_iff (e1 e2 : Event) :
    areEventsSimilar e1 e2 = true ↔
      (dayKey e1 = dayKey e2 ∧
        (normalizeTitle e1.title = normalizeTitle e2.title ∨
          normalizeTitle e2.title <:+: normalizeTitle e1.title ∨
          normalizeTitle e1.title <:+: normalizeTitle e2.title ∨
          (0.8 : ℚ) < calculateSimilarity (normalizeTitle e1.title) (normalizeTitle e2.title))) := by
  unfold areEventsSimilar
  dsimp only
  rcases Classical.em (dayKey e1 = dayKey e2) with hd | hd
  · rw [if_neg (not_not_intro hd)]
    rcases Classical.em (normalizeTitle e1.title = normalizeTitle e2.title) with heq | heq
    · rw [if_pos heq]
      exact ⟨fun _ => ⟨hd, Or.inl heq⟩, fun _ => rfl⟩
    · rw [if_neg heq]
      rcases Classical.em ((normalizeTitle e2.title <:+: normalizeTitle e1.title) ∨
          (normalizeTitle e1.title <:+: normalizeTitle e2.title)) with hsub | hsub
      · have hb : (decide (normalizeTitle e2.title <:+: normalizeTitle e1.title) ||
            decide (normalizeTitle e1.title <:+: normalizeTitle e2.title)) = true := by
          rcases hsub with h | h
          · rw [decide_eq_true h, Bool.true_or]
          · rw [decide_eq_true h, Bool.or_true]
        rw [if_pos hb]
        refine ⟨fun _ => ⟨hd, ?_⟩, fun _ => rfl⟩
        rcases hsub with h | h
        · exact Or.inr (Or.inl h)
        · exact Or.inr (Or.inr (Or.inl h))
      · have hb : (decide (normalizeTitle e2.title <:+: normalizeTitle e1.title) ||
            decide (normalizeTitle e1.title <:+: normalizeTitle e2.title)) = false := by
          rw [decide_eq_false (fun h => hsub (Or.inl h)),
            decide_eq_false (fun h => hsub (Or.inr h)), Bool.or_false]
        rw [hb]
        rw [if_neg (by exact Bool.false_ne_true)]
        constructor
        · intro h
          exact ⟨hd, Or.inr (Or.inr (Or.inr (of_decide_eq_true h)))⟩
        · intro h
          rcases h.2 with h' | h' | h' | h'
          · exact absurd h' heq
          · exact absurd h' (fun h'' => hsub (Or.inl h''))
          · exact absurd h' (fun h'' => hsub (Or.inr h''))
          · exact decide_eq_true h'
  · rw [if_pos hd]
    exact ⟨fun h => absurd h Bool.false_ne_true, fun h => absurd h.1 hd⟩

/-- C1. For every pair of events, the Deduplicator's similarity predicate
judges them duplicates if and only if they fall on the same calendar day and
their normalized titles are identical, or one normalized title is a substring
of the other, or the token-overlap score (as the spec words it) is strictly
greater than 0.8; in particular events on different calendar days are never
judged duplicates. -/
theorem claim_C1_similarity_predicate (e1 e2 : Event) :
    areEventsSimilar e1 e2 = true ↔ SpecSimilar e1 e2 := by
  rw [areEventsSimilar_iff]
  unfold SpecSimilar dayKey
  rcases Classical.em (normalizeTitle e1.title = normalizeTitle e2.title) with heq | heq
  · exact ⟨fun h => ⟨h.1, Or.inl heq⟩, fun h => ⟨h.1, Or.inl heq⟩⟩
  · rw [calculateSimilarity_eq_spec _ _ (longer_length_ne_zero heq)]

/-! ### Idempotence of deduplication -/

theorem dedupGo_idem :
    ∀ (l : List Event) (seen : List ((List Char × Int) × Event)),
      dedupGo seen (dedupGo seen l) = dedupGo seen l
  | [], _ => rfl
  | e :: rest, seen => by
    cases h1 : seen.any (fun p => p.1 = dedupKey e) with
    | true =>
        simp only [dedupGo, h1, if_true]
        exact dedupGo_idem rest seen
    | false =>
        cases h2 : seen.any (fun p => areEventsSimilar e p.2) with
        | true =>
            simp only [dedupGo, h1, h2, Bool.false_eq_true, if_false, if_true]
            exact dedupGo_idem rest seen
        | false =>
            simp only [dedupGo, h1, h2, Bool.false_eq_true, if_false]
            rw [dedupGo_idem rest (seen ++ [(dedupKey e, e)])]

/-- C5. The deduplication function is idempotent: for every list of events,
`dedupe(dedupe(x)) = dedupe(x)`. -/
theorem claim_C5_dedupe_idempotent (events : List Event) :
    removeDuplicates (removeDuplicates events) = removeDuplicates events :=
  dedupGo_idem events []

/-! ### Properties of the stable sort -/

section SortLemmas

variable {α : Type} {K : Type} [LinearOrder K] (key : α → K)

theorem mem_insBy {x a : α} : ∀ {l : List α}, a ∈ insBy key x l ↔ a = x ∨ a ∈ l
  | [] => by simp [insBy]
  | y :: ys => by
    unfold insBy
    rcases Classical.em (key x < key y) with h | h
    · rw [if_pos h]
      simp
    · rw [if_neg h]
      simp only [List.mem_cons, mem_insBy]
      tauto

theorem insBy_perm (x : α) : ∀ (l : List α), (insBy key x l).Perm (x :: l)
  | [] => List.Perm.refl _
  | y :: ys => by
    unfold insBy
    rcases Classical.em (key x < key y) with h | h
    · rw [if_pos h]
    · rw [if_neg h]
      exact ((insBy_perm x ys).cons y).trans (List.Perm.swap x y ys)

theorem foldl_insBy_perm : ∀ (l acc : List α),
    (l.foldl (fun acc x => insBy key x acc) acc).Perm (l ++ acc)
  | [], acc => by simp
  | x :: rest, acc => by
    simp only [List.foldl_cons, List.cons_append]
    exact (foldl_insBy_perm rest (insBy key x acc)).trans
      ((List.perm_append_left_iff rest).mpr (insBy_perm key x acc) |>.trans
        List.perm_middle)

theorem jsSortBy_perm (l : List α) : (jsSortBy key l).Perm l := by
  have h := foldl_insBy_perm key l []
  rwa [List.append_nil] at h

theorem pairwise_insBy {x : α} :
    ∀ {l : List α}, l.Pairwise (fun a b => key a ≤ key b) →
      (insBy key x l).Pairwise (fun a b => key a ≤ key b)
  | [], _ => List.pairwise_singleton _ x
  | y :: ys, h => by
    unfold insBy
    rcases Classical.em (key x < key y) with hlt | hlt
    · rw [if_pos hlt]
      refine List.Pairwise.cons ?_ h
      intro b hb
      rcases List.mem_cons.mp hb with rfl | hb'
      · exact le_of_lt hlt
      · exact le_trans (le_of_lt hlt) (List.rel_of_pairwise_cons h hb')
    · rw [if_neg hlt]
      refine List.Pairwise.cons ?_ (pairwise_insBy (List.Pairwise.of_cons h))
      intro b hb
      rcases (mem_insBy key).mp hb with rfl | hb'
      · exact le_of_not_lt hlt
      · exact List.rel_of_pairwise_cons h hb'

theorem foldl_insBy_pairwise : ∀ (l acc : List α),
    acc.Pairwise (fun a b => key a ≤ key b) →
      (l.foldl (fun acc x => insBy key x acc) acc).Pairwise (fun a b => key a ≤ key b)
  | [], _, h => h
  | x :: rest, acc, h => by
    simp only [List.foldl_cons]
    exact foldl_insBy_pairwise rest (insBy key x acc) (pairwise_insBy key h)

theorem jsSortBy_pairwise (l : List α) :
    (jsSortBy key l).Pairwise (fun a b => key a ≤ key b) :=
  foldl_insBy_pairwise key l [] (List.Pairwise.nil)

theorem length_jsSortBy (l : List α) : (jsSortBy key l).length = l.length :=
  (jsSortBy_perm key l).length_eq

/-- Stability bridge, insertion step: inserting the `n`-th element by the
lexicographic key (key, input index) into an accumulator of earlier-indexed
elements places it exactly where the plain key-insertion places it. -/
theorem insBy_lex_snd (n : ℕ) (x : α) :
    ∀ (acc : List (ℕ × α)), (∀ p ∈ acc, p.1 < n) →
      (insBy (lexIdxKey key) (n, x) acc).map Prod.snd = insBy key x (acc.map Prod.snd)
  | [], _ => rfl
  | (i, y) :: rest, hidx => by
    have hi : i < n := hidx (i, y) (List.mem_cons_self _ _)
    have hcond : lexIdxKey key (n, x) < lexIdxKey key (i, y) ↔ key x < key y := by
      unfold lexIdxKey
      rw [Prod.Lex.lt_iff]
      constructor
      · rintro (h | ⟨-, h⟩)
        · exact h
        · omega
      · exact Or.inl
    simp only [List.map_cons]
    unfold insBy
    rcases Classical.em (key x < key y) with h | h
    · rw [if_pos (hcond.mpr h), if_pos h]
      rfl
    · rw [if_neg (fun hc => h (hcond.mp hc)), if_neg h]
      simp only [List.map_cons]
      rw [insBy_lex_snd n x rest (fun p hp => hidx p (List.mem_cons_of_mem _ hp))]

theorem foldl_insBy_lex_snd :
    ∀ (l : List α) (n : ℕ) (acc : List (ℕ × α)), (∀ p ∈ acc, p.1 < n) →
      ((List.enumFrom n l).foldl
          (fun acc x => insBy (lexIdxKey key) x acc) acc).map Prod.snd =
        l.foldl (fun acc x => insBy key x acc) (acc.map Prod.snd)
  | [], _, _, _ => rfl
  | x :: rest, n, acc, hidx => by
    simp only [List.enumFrom, List.foldl_cons]
    rw [foldl_insBy_lex_snd rest (n + 1) (insBy (lexIdxKey key) (n, x) acc)
      (fun p hp => by
        rcases (mem_insBy (lexIdxKey key)).mp hp with rfl | hp'
        · exact Nat.lt_succ_self n
        · exact Nat.lt_succ_of_lt (hidx p hp'))]
    rw [insBy_lex_snd key n x acc hidx]

/-- Stability of the modelled JS sort: sorting by key equals sorting by the
lexicographic (key, input index) pair and dropping the indices — i.e. the
sort is the unique reordering that is ordered by the key and breaks key-ties
by input position. -/
theorem jsSortBy_enum_snd (l : List α) :
    (jsSortBy (lexIdxKey key) l.enum).map Prod.snd = jsSortBy key l := by
  unfold jsSortBy
  have h := foldl_insBy_lex_snd key l 0 [] (by intro p hp; cases hp)
  simpa [List.enum] using h

end SortLemmas

/-! ### What deduplication guarantees about its output -/

theorem dedupGo_pairwise :
    ∀ (l : List Event) (seen : List ((List Char × Int) × Event)),
      (dedupGo seen l).Pairwise (fun a b => areEventsSimilar b a = false) ∧
        ∀ b ∈ dedupGo seen l, ∀ p ∈ seen, areEventsSimilar b p.2 = false
  | [], _ => ⟨List.Pairwise.nil, fun b hb => absurd hb (List.not_mem_nil b)⟩
  | e :: rest, seen => by
    cases h1 : seen.any (fun p => p.1 = dedupKey e) with
    | true =>
        simp only [dedupGo, h1, if_true]
        exact dedupGo_pairwise rest seen
    | false =>
        cases h2 : seen.any (fun p => areEventsSimilar e p.2) with
        | true =>
            simp only [dedupGo, h1, h2, Bool.false_eq_true, if_false, if_true]
            exact dedupGo_pairwise rest seen
        | false =>
            simp only [dedupGo, h1, h2, Bool.false_eq_true, if_false]
            have ih := dedupGo_pairwise rest (seen ++ [(dedupKey e, e)])
            have h2' : ∀ p ∈ seen, areEventsSimilar e p.2 = false := by
              intro p hp
              have := List.any_eq_false.mp h2 p hp
              exact Bool.not_eq_true _ |>.mp this
            refine ⟨List.Pairwise.cons ?_ ih.1, ?_⟩
            · intro b hb
              exact ih.2 b hb (dedupKey e, e) (List.mem_append_right _ (List.mem_singleton_self _))
            · intro b hb p hp
              rcases List.mem_cons.mp hb with rfl | hb'
              · exact h2' p hp
              · exact ih.2 b hb' p (List.mem_append_left _ hp)

theorem removeDuplicates_pairwise (l : List Event) :
    (removeDuplicates l).Pairwise (fun a b => areEventsSimilar b a = false) :=
  (dedupGo_pairwise l []).1

/-- Two events are not mutual duplicates: the code's (order-sensitive)
similarity predicate does not hold in both orientations. -/
def NotMutualDup (a b : Event) : Prop :=
  ¬(areEventsSimilar a b = true ∧ areEventsSimilar b a = true)

theorem notMutualDup_symm : Symmetric NotMutualDup := by
  intro a b h hc
  exact h ⟨hc.2, hc.1⟩

theorem removeDuplicates_notMutual (l : List Event) :
    (removeDuplicates l).Pairwise NotMutualDup := by
  refine (removeDuplicates_pairwise l).imp ?_
  intro a b h hc
  rw [hc.2] at h
  cases h

/-- The in-memory query path is sorted by date ascending. -/
theorem memAllEvents_sorted (l : List Event) :
    (memAllEvents l).Pairwise (fun a b => dateMs a ≤ dateMs b) :=
  jsSortBy_pairwise dateMs (removeDuplicates l)

/-- The in-memory query path contains no two mutually similar events. -/
theorem memAllEvents_notMutual (l : List Event) :
    (memAllEvents l).Pairwise NotMutualDup :=
  ((jsSortBy_perm dateMs (removeDuplicates l)).pairwise_iff
    (fun h => notMutualDup_symm h)).mpr (removeDuplicates_notMutual l)

/-- Counterexample store contents for C2: the same festival collected by two
sources, hence two distinct `eventId`s that the Mongo unique index keeps
both of. -/
def ce2Event1 : Event :=
  { id := "iloveqatar-doha-food-festival", title := "Doha Food Festival",
    description := "", date := ⟨2025, 5, 5⟩, endDate := none, time := "",
    price := "Free", category := "Food", image := "", link := "",
    source := "iloveqatar", venue := "", organizer := "" }

/-- Second copy of the festival, from another source. -/
def ce2Event2 : Event :=
  { id := "visitqatar-doha-food-festival", title := "Doha Food Festival",
    description := "", date := ⟨2025, 5, 5⟩, endDate := none, time := "",
    price := "Free", category := "Food", image := "", link := "",
    source := "visitqatar", venue := "", organizer := "" }

/-- C2 counterexample. In persistence-backed mode, `getAllEvents` returns the
store contents date-sorted without re-applying deduplication: a database
holding the same-day, same-title festival under two source-tagged ids yields
a result list containing two distinct events that satisfy the similarity
predicate — refuting "the returned list is deduplicated ... for every catalog
state (in-memory or persistence-backed)". -/
theorem claim_C2_counterexample :
    getAllEvents ⟨true, [], [ce2Event1, ce2Event2]⟩ true = [ce2Event1, ce2Event2] ∧
      areEventsSimilar ce2Event1 ce2Event2 = true ∧ ce2Event1 ≠ ce2Event2 := by
  refine ⟨by decide, by decide, by decide⟩

/-- C2 as amended: in-memory mode re-applies deduplication on every query —
`all()` literally recomputes `sort(dedupe(store))`, and each of `all()`,
`queryRange` and `queryByCategory` returns a date-ascending list containing
no two mutually similar events; in persistence-backed mode the queries return
the store's contents date-ascending but without similarity re-deduplication
(only `eventId` uniqueness). -/
theorem claim_C2_amended_queries (mem db : List Event) (dbOk : Bool) (cat : String)
    (startMs endMs : Int) :
    (getAllEvents ⟨false, mem, db⟩ dbOk = jsSortBy dateMs (removeDuplicates mem)) ∧
      (getAllEvents ⟨false, mem, db⟩ dbOk).Pairwise (fun a b => dateMs a ≤ dateMs b) ∧
      (getAllEvents ⟨false, mem, db⟩ dbOk).Pairwise NotMutualDup ∧
      (filterByDateRange ⟨false, mem, db⟩ dbOk startMs endMs).Pairwise
        (fun a b => dateMs a ≤ dateMs b) ∧
      (filterByDateRange ⟨false, mem, db⟩ dbOk startMs endMs).Pairwise NotMutualDup ∧
      (getEventsByCategory ⟨false, mem, db⟩ dbOk cat).Pairwise
        (fun a b => dateMs a ≤ dateMs b) ∧
      (getEventsByCategory ⟨false, mem, db⟩ dbOk cat).Pairwise NotMutualDup ∧
      (getAllEvents ⟨true, mem, db⟩ true).Pairwise (fun a b => dateMs a ≤ dateMs b) := by
  have hga : getAllEvents ⟨false, mem, db⟩ dbOk = memAllEvents mem := by
    simp [getAllEvents]
  have hfr : filterByDateRange ⟨false, mem, db⟩ dbOk startMs endMs =
      memAllEvents (mem.filter (fun e => startMs ≤ dateMs e && dateMs e ≤ endMs)) := by
    simp [filterByDateRange]
  have hbc : getEventsByCategory ⟨false, mem, db⟩ dbOk cat =
      (getAllEvents ⟨false, mem, db⟩ dbOk).filter
        (fun e => lowerStr e.category = lowerStr cat) := by
    simp [getEventsByCategory]
  refine ⟨hga, ?_, ?_, ?_, ?_, ?_, ?_, ?_⟩
  · rw [hga]; exact memAllEvents_sorted mem
  · rw [hga]; exact memAllEvents_notMutual mem
  · rw [hfr]; exact memAllEvents_sorted _
  · rw [hfr]; exact memAllEvents_notMutual _
  · rw [hbc, hga]; exact (memAllEvents_sorted mem).filter _
  · rw [hbc, hga]; exact (memAllEvents_notMutual mem).filter _
  · simp only [getAllEvents, if_true]
    exact jsSortBy_pairwise dateMs db

/-! ### Date-resolution claims -/

theorem isLeap_2001 : isLeap 2001 = false := by decide

theorem daysInMonth_2001_le (y m : Int) : daysInMonth 2001 m ≤ daysInMonth y m := by
  unfold daysInMonth
  rw [isLeap_2001]
  simp only [Bool.false_eq_true, if_false]
  split_ifs <;> omega

theorem validYMD_transfer (y m d : Int) (h : validYMD 2001 m d = true) :
    validYMD y m d = true := by
  unfold validYMD at h ⊢
  simp only [Bool.and_eq_true, decide_eq_true_eq] at h ⊢
  have := daysInMonth_2001_le y m
  omega

theorem resolvePre_empty (now : Civil) : resolvePre .empty now = none := rfl

theorem resolvePre_junk (now : Civil) : resolvePre .junk now = none := rfl

/-- The rollover phase of `parseDate`, isolated: once the year-resolution
phase has produced a date, `parseDate` returns it, with the year bumped by
one exactly when the date lies more than 30 days before `now`. -/
theorem parseDate_of_resolve (s : RawDateStr) (now : Civil) (c : Civil)
    (hne : s ≠ .empty) (hres : resolvePre s now = some c) :
    parseDate s now =
      if c.toDays < now.toDays - 30 then setFullYear c (c.y + 1) else c := by
  unfold parseDate
  rw [if_neg hne, hres]

/-- Every failed resolution falls back to `now`. -/
theorem parseDate_of_eq_none (s : RawDateStr) (now : Civil)
    (hres : resolvePre s now = none) : parseDate s now = now := by
  unfold parseDate
  rcases Classical.em (s = .empty) with h | h
  · rw [if_pos h]
  · rw [if_neg h, hres]

/-- When the no-year string parses against the default year 2001, the
stale-year re-parse resolves it to the current year. -/
theorem resolvePre_monthDay (m d : Int) (now : Civil) (hy : (2003 : Int) ≤ now.y)
    (hv : validYMD 2001 m d = true) :
    resolvePre (.monthDay m d) now = some ⟨now.y, m, d⟩ := by
  have h1 : jsParse (.monthDay m d) = some ⟨2001, m, d⟩ := by
    simp [jsParse, hv]
  have h2 : jsParse (.monthDayYear m d now.y) = some ⟨now.y, m, d⟩ := by
    simp [jsParse, validYMD_transfer now.y m d hv]
  unfold resolvePre
  rw [h1]
  simp only []
  rw [if_pos (show (Civil.mk 2001 m d).y < now.y - 1 by simp only []; omega)]
  rw [show appendYear (stripTrailingYear (.monthDay m d)) now.y = .monthDayYear m d now.y
    from rfl]
  rw [h2, Option.map_some']
  rw [if_neg (show ¬(Civil.mk now.y m d).y < now.y - 1 by simp only []; omega)]

/-- The invalid-for-2001 month-day falls through to the re-parse with the
current year appended. -/
theorem resolvePre_monthDay_invalid (m d : Int) (now : Civil)
    (hv : validYMD 2001 m d = false) :
    resolvePre (.monthDay m d) now =
      (jsParse (.monthDayYear m d now.y)).map
        (fun c => if c.y < now.y - 1 then setFullYear c now.y else c) := by
  have h1 : jsParse (.monthDay m d) = none := by
    simp [jsParse, hv]
  unfold resolvePre
  rw [h1]
  rfl

/-- C3. For every raw date string that does not contain a year (and with the
reference instant in year 2003 or later, as it always is for this system),
`parseDate` returns a date whose year is the current year or the current
year plus one — never an epoch-like default year such as 2001. -/
theorem claim_C3_no_epoch_year (s : RawDateStr) (now : Civil)
    (hno : hasYear s = false) (hy : (2003 : Int) ≤ now.y) :
    (parseDate s now).y = now.y ∨ (parseDate s now).y = now.y + 1 := by
  cases s with
  | empty =>
      left
      rw [parseDate, if_pos rfl]
  | monthDayYear m d y => simp [hasYear] at hno
  | junk =>
      left
      rw [parseDate_of_eq_none _ now (resolvePre_junk now)]
  | monthDay m d =>
      have hne : (RawDateStr.monthDay m d) ≠ .empty := by simp
      cases hv : validYMD 2001 m d with
      | true =>
          have hres := resolvePre_monthDay m d now hy hv
          rw [parseDate_of_resolve _ now _ hne hres]
          rcases Classical.em ((Civil.mk now.y m d).toDays < now.toDays - 30) with h | h
          · rw [if_pos h]
            right
            rfl
          · rw [if_neg h]
            left
            rfl
      | false =>
          have hres := resolvePre_monthDay_invalid m d now hv
          cases hv2 : validYMD now.y m d with
          | true =>
              have h2 : jsParse (.monthDayYear m d now.y) = some ⟨now.y, m, d⟩ := by
                simp [jsParse, hv2]
              rw [h2, Option.map_some'] at hres
              rw [if_neg (show ¬(Civil.mk now.y m d).y < now.y - 1 by
                simp only []; omega)] at hres
              rw [parseDate_of_resolve _ now _ hne hres]
              rcases Classical.em ((Civil.mk now.y m d).toDays < now.toDays - 30) with h | h
              · rw [if_pos h]
                right
                rfl
              · rw [if_neg h]
                left
                rfl
          | false =>
              have h2 : jsParse (.monthDayYear m d now.y) = none := by
                simp [jsParse, hv2]
              rw [h2] at hres
              left
              rw [parseDate_of_eq_none _ now hres]

/-- Witness for C3: "Jan 3" resolved on 2026-10-11. -/
theorem claim_C3_no_epoch_year_witness :
    (parseDate (.monthDay 1 3) ⟨2026, 10, 11⟩).y = (Civil.mk 2026 10 11).y ∨
      (parseDate (.monthDay 1 3) ⟨2026, 10, 11⟩).y = (Civil.mk 2026 10 11).y + 1 :=
  claim_C3_no_epoch_year (.monthDay 1 3) ⟨2026, 10, 11⟩ (by decide) (by decide)

/-- C4. For every successfully parsed date (the year-resolution phase
produced `c`), `parseDate` applies the rollover rule: the result is `c` with
its year incremented by one exactly when `c` lies more than 30 days before
the reference instant, and `c` unchanged (same year) otherwise. -/
theorem claim_C4_rollover (s : RawDateStr) (now : Civil) (c : Civil)
    (hres : resolvePre s now = some c) :
    parseDate s now =
        (if c.toDays < now.toDays - 30 then setFullYear c (c.y + 1) else c) ∧
      (c.toDays < now.toDays - 30 → (parseDate s now).y = c.y + 1) ∧
      (¬c.toDays < now.toDays - 30 → parseDate s now = c) := by
  have hne : s ≠ .empty := by
    rintro rfl
    rw [resolvePre_empty] at hres
    cases hres
  have h := parseDate_of_resolve s now c hne hres
  refine ⟨h, ?_, ?_⟩
  · intro hlt
    rw [h, if_pos hlt]
    rfl
  · intro hge
    rw [h, if_neg hge]

/-- Witness for C4: "Jan 3" resolved while the reference instant is
December 20 lands in the following year (2026-01-03). -/
theorem claim_C4_rollover_witness :
    parseDate (.monthDay 1 3) ⟨2025, 12, 20⟩ = ⟨2026, 1, 3⟩ := by
  have h := claim_C4_rollover (.monthDay 1 3) ⟨2025, 12, 20⟩ ⟨2025, 1, 3⟩ (by decide)
  rw [h.1, if_pos (by decide)]
  rfl

/-! ### Cosine similarity (C7) -/

/-- The dot product, as the spec words it. -/
def dotProduct (a b : List ℚ) : ℚ :=
  (List.zipWith (fun x y => x * y) a b).sum

/-- Sum of squares of a vector's components. -/
def sumSq (a : List ℚ) : ℚ :=
  (a.map (fun x => x * x)).sum

/-- The L2 norm, as the spec words it: the square root of the sum of
squares. -/
noncomputable def l2norm (a : List ℚ) : ℝ :=
  Real.sqrt ((sumSq a : ℚ) : ℝ)

theorem simLoop_eq : ∀ (a b : List ℚ), a.length = b.length →
    simLoop a b = (dotProduct a b, sumSq a, sumSq b)
  | [], [], _ => by simp [simLoop, dotProduct, sumSq]
  | [], _ :: _, h => by simp at h
  | _ :: _, [], h => by simp at h
  | a :: as, b :: bs, h => by
      have h' : as.length = bs.length := by simpa using h
      simp only [simLoop, simLoop_eq as bs h', dotProduct, sumSq, List.zipWith_cons_cons,
        List.map_cons, List.sum_cons]

/-- C7. For every pair of vectors: mismatched lengths abort with an error;
otherwise the similarity is the dot product divided by the product of the two
L2 norms, except that a zero norm on either side yields 0 instead of a
division by zero. -/
theorem claim_C7_cosine_similarity (a b : List ℚ) :
    cosineSimilarity a b =
      if a.length ≠ b.length then .error "Vectors must have the same length"
      else if l2norm a = 0 ∨ l2norm b = 0 then .ok 0
      else .ok (((dotProduct a b : ℚ) : ℝ) / (l2norm a * l2norm b)) := by
  unfold cosineSimilarity
  rcases Classical.em (a.length = b.length) with h | h
  · rw [if_neg (not_not_intro h), if_neg (not_not_intro h), simLoop_eq a b h]
    rfl
  · rw [if_pos h, if_pos h]

/-! ### Top-k search ranking (C6) -/

theorem specRank_eq_sort (rs : List SearchResult) :
    specRank rs = jsSortBy negSim rs :=
  jsSortBy_enum_snd negSim rs

/-- C6. Whenever the scoring pass succeeds (every stored vector has the query
dimension), `search` returns the first `k` of the spec's ranking — descending
cosine similarity with ties broken by input (insertion) order — hence at most
`k` results, sorted by descending similarity; and on an empty store it
returns the empty list rather than raising. -/
theorem claim_C6_search_ranking (source : List (String × VSEntry)) (q : List ℚ) (k : Nat)
    (eventMetadata : List Event) (scored : List SearchResult)
    (h : scoredE source q eventMetadata = .ok scored) :
    searchE source q k eventMetadata = .ok ((specRank scored).take k) ∧
      ((specRank scored).take k).length ≤ k ∧
      ((specRank scored).take k).Pairwise (fun a b => b.similarity ≤ a.similarity) ∧
      searchE [] q k eventMetadata = .ok [] := by
  refine ⟨?_, ?_, ?_, ?_⟩
  · unfold searchE
    rw [h, specRank_eq_sort]
    rfl
  · exact List.length_take_le k _
  · rw [specRank_eq_sort]
    refine List.Pairwise.sublist (List.take_sublist k _) ?_
    refine (jsSortBy_pairwise negSim scored).imp ?_
    intro a b hab
    exact neg_le_neg_iff.mp hab
  · unfold searchE
    show Except.ok (List.take k ([] : List SearchResult)) = _
    rw [List.take_nil]

/-- A query/store pair on which the scoring pass is evaluated concretely:
the stored vector [1] against the query [0] (zero query norm, similarity 0). -/
theorem scoredE_concrete :
    scoredE [("e1", ⟨[(1 : ℚ)], Meta.idOnly "e1"⟩)] [(0 : ℚ)] [] =
      .ok [⟨"e1", Meta.idOnly "e1", 0⟩] := by
  have hsl : simLoop [(0 : ℚ)] [(1 : ℚ)] = (0, 0, 1) := by
    norm_num [simLoop]
  have hcos : cosineSimilarity [(0 : ℚ)] [(1 : ℚ)] = .ok 0 := by
    unfold cosineSimilarity
    rw [if_neg (by decide), hsl]
    rw [if_pos (Or.inl (by simp))]
  unfold scoredE
  rw [hcos]
  rfl

/-- Witness for C6 at the concrete one-entry store. -/
theorem claim_C6_search_ranking_witness :
    searchE [("e1", ⟨[(1 : ℚ)], Meta.idOnly "e1"⟩)] [(0 : ℚ)] 5 [] =
        .ok ((specRank [⟨"e1", Meta.idOnly "e1", 0⟩]).take 5) ∧
      ((specRank [⟨"e1", Meta.idOnly "e1", 0⟩]).take 5).length ≤ 5 ∧
      ((specRank [⟨"e1", Meta.idOnly "e1", 0⟩]).take 5).Pairwise
        (fun a b => b.similarity ≤ a.similarity) ∧
      searchE [] [(0 : ℚ)] 5 [] = .ok [] :=
  claim_C6_search_ranking _ _ 5 _ _ scoredE_concrete

/-! ### Chat failure policy (C8) -/

/-- C8. `chat` never propagates a provider or retrieval failure: with no API
key it replies with the fixed not-configured message and no events; with a
key and a non-empty store, a failing embedding call, a throwing retrieval
step, or a failing generation call each produce the fixed apologetic error
message and an empty event list. -/
theorem claim_C8_chat_failure_fallback (cb : ChatbotState)
    (embedR : Except String (List ℚ)) (genR : String → Except String String)
    (userQuery : String) (allEvents : List Event) :
    (cb.hasApiKey = false →
        chat cb embedR genR userQuery allEvents = ⟨notConfiguredMsg, []⟩) ∧
      (cb.hasApiKey = true → storeIsEmpty cb.store = false →
        (∀ msg, embedR = .error msg →
            chat cb embedR genR userQuery allEvents = ⟨chatErrorMsg, []⟩) ∧
          (∀ qv, embedR = .ok qv →
            (∀ msg, searchState cb.store qv 5 allEvents = .error msg →
                chat cb embedR genR userQuery allEvents = ⟨chatErrorMsg, []⟩) ∧
              (∀ rs, searchState cb.store qv 5 allEvents = .ok rs →
                ∀ msg, genR (buildPrompt userQuery (buildContext rs)) = .error msg →
                  chat cb embedR genR userQuery allEvents = ⟨chatErrorMsg, []⟩))) := by
  constructor
  · intro hk
    unfold chat
    rw [if_pos hk]
  · intro hk hne
    have hk' : ¬cb.hasApiKey = false := by rw [hk]; simp
    have hne' : ¬storeIsEmpty cb.store = true := by rw [hne]; simp
    refine ⟨?_, ?_⟩
    · intro msg hm
      unfold chat
      rw [if_neg hk', if_neg hne', hm]
    · intro qv hqv
      refine ⟨?_, ?_⟩
      · intro msg hs
        unfold chat
        rw [if_neg hk', if_neg hne', hqv]
        show (match searchState cb.store qv 5 allEvents with
          | .error _ => (⟨chatErrorMsg, []⟩ : ChatReply)
          | .ok results =>
              match genR (buildPrompt userQuery (buildContext results)) with
              | .error _ => ⟨chatErrorMsg, []⟩
              | .ok text => ⟨text, results.map (fun r : SearchResult => r.metadata)⟩) = _
        rw [hs]
      · intro rs hrs msg hg
        unfold chat
        rw [if_neg hk', if_neg hne', hqv]
        show (match searchState cb.store qv 5 allEvents with
          | .error _ => (⟨chatErrorMsg, []⟩ : ChatReply)
          | .ok results =>
              match genR (buildPrompt userQuery (buildContext results)) with
              | .error _ => ⟨chatErrorMsg, []⟩
              | .ok text => ⟨text, results.map (fun r : SearchResult => r.metadata)⟩) = _
        rw [hrs]
        show (match genR (buildPrompt userQuery (buildContext rs)) with
          | .error _ => (⟨chatErrorMsg, []⟩ : ChatReply)
          | .ok text => ⟨text, rs.map (fun r : SearchResult => r.metadata)⟩) = _
        rw [hg]

/-- Witness for C8: a configured chatbot with one indexed vector and a failing
embedding provider replies with the fixed error message and no events. -/
theorem claim_C8_chat_failure_fallback_witness :
    chat ⟨true, ⟨false, [("e1", ⟨[(1 : ℚ)], Meta.idOnly "e1"⟩)], none, []⟩⟩
        (.error "embedding provider unavailable") (fun _ => .ok "hello") "query" [] =
      ⟨chatErrorMsg, []⟩ :=
  ((claim_C8_chat_failure_fallback
      ⟨true, ⟨false, [("e1", ⟨[(1 : ℚ)], Meta.idOnly "e1"⟩)], none, []⟩⟩
      (.error "embedding provider unavailable") (fun _ => .ok "hello") "query" []).2
    rfl rfl).1 "embedding provider unavailable" rfl

/-! ### Persistence-failure writes and search visibility (C9) -/

theorem mem_mapSet_self {β : Type} (m : List (String × β)) (k : String) (v : β) :
    (k, v) ∈ mapSet m k v := by
  unfold mapSet
  cases ha : m.any (fun p => p.1 = k) with
  | false =>
      rw [if_neg Bool.false_ne_true]
      exact List.mem_append_right _ (List.mem_singleton_self _)
  | true =>
      rw [if_pos rfl]
      rcases List.any_eq_true.mp ha with ⟨p, hp, hpk⟩
      refine List.mem_map.mpr ⟨p, hp, ?_⟩
      rw [if_pos (of_decide_eq_true hpk)]

theorem scoredE_ids (q : List ℚ) (eventMetadata : List Event) :
    ∀ (source : List (String × VSEntry)) (scored : List SearchResult),
      scoredE source q eventMetadata = .ok scored →
        scored.map (fun r => r.eventId) = source.map Prod.fst
  | [], scored, h => by
      unfold scoredE at h
      cases h
      rfl
  | (eid, data) :: rest, scored, h => by
      unfold scoredE at h
      cases hcos : cosineSimilarity q data.embedding with
      | error msg => rw [hcos] at h; cases h
      | ok sim =>
          rw [hcos] at h
          cases hrec : scoredE rest q eventMetadata with
          | error msg => rw [hrec] at h; cases h
          | ok rs =>
              rw [hrec] at h
              cases h
              simp only [List.map_cons]
              rw [scoredE_ids q eventMetadata rest rs hrec]

/-- When `k` covers the whole store, every stored id appears among the search
results. -/
theorem searchE_complete (source : List (String × VSEntry)) (q : List ℚ) (k : Nat)
    (eventMetadata : List Event) (res : List SearchResult)
    (h : searchE source q k eventMetadata = .ok res) (hk : source.length ≤ k) :
    ∀ p ∈ source, ∃ r ∈ res, r.eventId = p.1 := by
  intro p hp
  unfold searchE at h
  cases hsc : scoredE source q eventMetadata with
  | error msg => rw [hsc] at h; cases h
  | ok scored =>
      rw [hsc] at h
      cases h
      have hids := scoredE_ids q eventMetadata source scored hsc
      have hlen : scored.length = source.length := by
        have := congrArg List.length hids
        simpa using this
      have hperm := jsSortBy_perm negSim scored
      have htake : (jsSortBy negSim scored).take k = jsSortBy negSim scored :=
        List.take_of_length_le (by rw [hperm.length_eq]; omega)
      show ∃ r ∈ List.take k (jsSortBy negSim scored), r.eventId = p.1
      rw [htake]
      have hmem : p.1 ∈ scored.map (fun r => r.eventId) := by
        rw [hids]
        exact List.mem_map_of_mem Prod.fst hp
      rcases List.mem_map.mp hmem with ⟨r, hr, hre⟩
      exact ⟨r, hperm.mem_iff.mpr hr, hre⟩

/-- C9 counterexample. With the read cache present (as it is after a
successful initialization), a write whose persistence fails does land in the
in-memory fallback map, but a subsequent `search` iterates the cache and does
not observe it: the same-process search returns no results at all — refuting
"a subsequent search in the same process observes the newly written vector". -/
theorem claim_C9_counterexample :
    (addVector ⟨true, [], some [], []⟩ false "e1" [(1 : ℚ)]
          (Meta.idOnly "e1")).inMemoryVectors =
        [("e1", ⟨[(1 : ℚ)], Meta.idOnly "e1"⟩)] ∧
      searchSource (addVector ⟨true, [], some [], []⟩ false "e1" [(1 : ℚ)]
          (Meta.idOnly "e1")) = [] ∧
      searchState (addVector ⟨true, [], some [], []⟩ false "e1" [(1 : ℚ)]
          (Meta.idOnly "e1")) [(1 : ℚ)] 5 [] = .ok [] :=
  ⟨rfl, rfl, rfl⟩

/-- C9 as amended: on a persistence failure the write goes to the in-memory
fallback map, and a subsequent search in the same process observes the newly
written vector when the read cache is absent (`vectorCache` null); when a
cache is present, search reads the cache and the fallback write is invisible
to it. -/
theorem claim_C9_amended_fallback_visibility (st : VSState) (eid : String)
    (emb : List ℚ) (m : Meta) (q : List ℚ) (k : Nat) (eventMetadata : List Event)
    (res : List SearchResult) (hdb : st.useDatabase = true)
    (hc : st.vectorCache = none) :
    ((eid, VSEntry.mk emb m) ∈ (addVector st false eid emb m).inMemoryVectors) ∧
      (searchState (addVector st false eid emb m) q k eventMetadata = .ok res →
        (addVector st false eid emb m).inMemoryVectors.length ≤ k →
          ∃ r ∈ res, r.eventId = eid) := by
  have hst : addVector st false eid emb m =
      { st with inMemoryVectors := mapSet st.inMemoryVectors eid ⟨emb, m⟩ } := by
    simp [addVector, hdb]
  have hsrc : searchSource (addVector st false eid emb m) =
      (addVector st false eid emb m).inMemoryVectors := by
    rw [hst]
    unfold searchSource
    simp [hdb, hc]
  constructor
  · rw [hst]
    exact mem_mapSet_self st.inMemoryVectors eid ⟨emb, m⟩
  · intro hs hlen
    unfold searchState at hs
    rw [hsrc] at hs
    exact searchE_complete _ q k eventMetadata res hs hlen (eid, ⟨emb, m⟩)
      (by rw [hst]; exact mem_mapSet_self st.inMemoryVectors eid ⟨emb, m⟩)

/-- Concrete search over the fallback map after a failed-persistence write
with no cache present. -/
theorem searchState_concrete :
    searchState (addVector ⟨true, [], none, []⟩ false "e1" [(1 : ℚ)] (Meta.idOnly "e1"))
        [(0 : ℚ)] 5 [] = .ok [⟨"e1", Meta.idOnly "e1", 0⟩] := by
  show searchE [("e1", ⟨[(1 : ℚ)], Meta.idOnly "e1"⟩)] [(0 : ℚ)] 5 [] = _
  unfold searchE
  rw [scoredE_concrete]
  rfl

/-- Witness for the amended C9 at a concrete cache-less store. -/
theorem claim_C9_amended_fallback_visibility_witness :
    (("e1", VSEntry.mk [(1 : ℚ)] (Meta.idOnly "e1")) ∈
        (addVector ⟨true, [], none, []⟩ false "e1" [(1 : ℚ)]
          (Meta.idOnly "e1")).inMemoryVectors) ∧
      ∃ r ∈ [SearchResult.mk "e1" (Meta.idOnly "e1") 0], r.eventId = "e1" := by
  have h := claim_C9_amended_fallback_visibility ⟨true, [], none, []⟩ "e1" [(1 : ℚ)]
    (Meta.idOnly "e1") [(0 : ℚ)] 5 [] [⟨"e1", Meta.idOnly "e1", 0⟩] rfl rfl
  exact ⟨h.1, h.2 searchState_concrete (by decide)⟩

/-! ### Normalizer defaults (C10) -/

/-- C10. The Normalizer evaluated at its failing input: a raw event with
every field absent (in particular both `id` and `title`) makes
`normalizeEvent` throw a `TypeError` out of `generateId` instead of returning
a canonical record — while the same event with only a title present does get
every documented default (`"Untitled Event"` would likewise appear if `title`
alone were absent but `id` present). -/
theorem claim_C10_normalizer_missing_id_title :
    normalizeEvent emptyRawEvent "test" ⟨2026, 10, 11⟩ =
        .error "TypeError: Cannot read properties of undefined (reading toLowerCase)" ∧
      normalizeEvent { emptyRawEvent with title := some "Art Fair" } "test" ⟨2026, 10, 11⟩ =
        .ok { id := "test-art-fair", title := "Art Fair", description := "",
              date := ⟨2026, 10, 11⟩, endDate := none, time := "", price := "Free",
              category := "General", image := "", link := "", source := "test",
              venue := "", organizer := "" } :=
  ⟨rfl, rfl⟩

end SCity
